import Mathlib

/-!
Verification development for the DocuMind Voice QA retrieval-augmented
answering core.  Each definition is a shallow embedding of a function of the
Python source (`src/backend/src/...`, `src/src/...`); theorems settle the
specification claims against those definitions.  Machine floats are modelled
by rationals, Python dicts by association lists, and the external key-value /
vector backends by explicit state values.
-/

namespace DocuMind

/-! ## Retriever data model (`src/backend/src/retriever.py`) -/

/-- Query types produced by `SmartRetriever._detect_query_type`
(`'table' | 'image' | 'factual' | 'conceptual' | 'general'`). -/
inductive QueryType
  | table
  | image
  | factual
  | conceptual
  | general
  deriving DecidableEq, Repr

/-- A value stored in a chunk-metadata dict (string or integer field). -/
inductive MetaVal
  | str (s : String)
  | nat (n : ℕ)
  deriving DecidableEq, Repr

/-- A chunk-metadata dict, as the Python code builds it: an association list
from field names to values. -/
abbrev Metadata := List (String × MetaVal)

/-- Dict lookup `meta[key]` / `meta.get(key)`. -/
def metaLookup (m : Metadata) (key : String) : Option MetaVal :=
  (m.find? (fun p => p.1 == key)).map (fun p => p.2)

/-- The `meta.get('word_count', 0)` read performed by
`SmartRetriever._rerank_results`: missing or non-integer field defaults to 0. -/
def metaWordCount (m : Metadata) : ℕ :=
  match metaLookup m "word_count" with
  | some (.nat n) => n
  | _ => 0

/-- Distance re-weighting applied by `SmartRetriever._filter_by_query_type` to a
single search result: a `general` query passes everything through unchanged;
`table`/`image` queries multiply the distance of kind-matching chunks by 0.8;
every other branch keeps the original distance. -/
def filterDistance (qt : QueryType) (meta : Metadata) (dist : ℚ) : ℚ :=
  if qt = .general then dist
  else if qt = .table ∧ metaLookup meta "chunk_type" = some (.str "table") then
    dist * (8/10)
  else if qt = .image ∧ metaLookup meta "chunk_type" = some (.str "image") then
    dist * (8/10)
  else dist

/-- The 1.2x kind-match boost of `SmartRetriever._rerank_results`. -/
def typeBoost (qt : QueryType) (meta : Metadata) (score : ℚ) : ℚ :=
  if qt = .table ∧ metaLookup meta "chunk_type" = some (.str "table") then
    score * (12/10)
  else if qt = .image ∧ metaLookup meta "chunk_type" = some (.str "image") then
    score * (12/10)
  else score

/-- The 1.1x content-length boost of `SmartRetriever._rerank_results` for
conceptual queries on chunks whose metadata word count exceeds 100. -/
def lengthBoost (qt : QueryType) (meta : Metadata) (score : ℚ) : ℚ :=
  if qt = .conceptual ∧ metaWordCount meta > 100 then score * (11/10) else score

/-- Score assigned to one result by `SmartRetriever._rerank_results`:
`score = 1 - dist`, then the kind-match boost, then the length boost. -/
def rerankScore (qt : QueryType) (meta : Metadata) (dist : ℚ) : ℚ :=
  lengthBoost qt meta (typeBoost qt meta (1 - dist))

/-- Final score of a retrieved chunk after both retriever stages
(`_filter_by_query_type` then `_rerank_results`). -/
def finalScore (qt : QueryType) (meta : Metadata) (dist : ℚ) : ℚ :=
  rerankScore qt meta (filterDistance qt meta dist)

/-! ## Answer confidence (`src/src/llm_handler.py`) -/

/-- `LLMHandler._calculate_confidence`: average retrieved-chunk score times a
source-count bonus, capped at 1; 0 for an empty context list. -/
def calculateConfidence (scores : List ℚ) : ℚ :=
  if scores = [] then 0
  else
    min (scores.sum / scores.length * (1 + min ((scores.length : ℚ) / 5) 1 * (2/10))) 1

/-! ## Chroma vector store (`src/backend/src/chroma_vector_store.py`) -/

/-- Shape of the value returned by `ChromaVectorStore.search`: ChromaDB's reply
format, where `documents`, `metadatas` and `distances` each hold one inner list
per query embedding. -/
structure ChromaQueryReply where
  documents : List (List String)
  metadatas : List (List Metadata)
  distances : List (List ℚ)
  deriving DecidableEq, Repr

/-- The literal value `ChromaVectorStore.search` returns when the collection is
empty (and likewise after a caught search exception): one empty inner list per
field. -/
def chromaEmptyReply : ChromaQueryReply :=
  { documents := [[]], metadatas := [[]], distances := [[]] }

/-- `ChromaVectorStore.search`: when the collection count is zero it returns
`chromaEmptyReply` without querying; otherwise it forwards ChromaDB's reply for
the query (modelled here as an input, since ChromaDB itself is external). -/
def chromaSearch (collectionCount : ℕ) (reply : ChromaQueryReply) :
    ChromaQueryReply :=
  if collectionCount = 0 then chromaEmptyReply else reply

/-- The `total_found` field computed by `SmartRetriever.retrieve`:
`len(search_results['documents'])` applied to the store's reply. -/
def retrieveTotalFound (r : ChromaQueryReply) : ℕ :=
  r.documents.length

/-- Chunk data handed to `ChromaVectorStore.add_documents` (the attributes the
method reads off each `DocumentChunk`). -/
structure ChunkInput where
  content : String
  chunk_type : String
  page_number : ℕ
  deriving DecidableEq, Repr

/-- The metadata dict built for one chunk by `ChromaVectorStore.add_documents`:
`document_name`, `chunk_type`, `page_number`, plus `user_id` when present — and
no other field. -/
def chunkMetadata (documentName : String) (userId : Option String)
    (ch : ChunkInput) : Metadata :=
  [("document_name", .str documentName),
   ("chunk_type", .str ch.chunk_type),
   ("page_number", .nat ch.page_number)] ++
  (match userId with
   | some u => [("user_id", .str u)]
   | none => [])

/-! ## Provider cascade (`src/backend/src/llm_fallback_handler.py`) -/

/-- Outcome of one provider's `chat.completions.create` call: the answer text,
or the message of the raised exception. -/
inductive ProviderOutcome
  | success (answer : String)
  | failure (errorMsg : String)
  deriving DecidableEq, Repr

/-- One configured provider: its display name, its text model, and the outcome
its API call would produce. -/
structure Provider where
  name : String
  textModel : String
  outcome : ProviderOutcome
  deriving DecidableEq, Repr

/-- Python's substring test `pat in hay` on character lists. -/
def listContains (hay pat : List Char) : Bool :=
  pat.isPrefixOf hay ||
    match hay with
    | [] => false
    | _ :: t => listContains t pat

/-- The quota/rate-limit test of `LLMFallbackHandler.query_text`:
`'rate' in msg.lower() or 'quota' in msg.lower() or '429' in msg`. -/
def isQuotaError (msg : String) : Bool :=
  listContains (msg.toList.map Char.toLower) "rate".toList
  || listContains (msg.toList.map Char.toLower) "quota".toList
  || listContains msg.toList "429".toList

/-- Result record returned by `LLMFallbackHandler.query_text`. -/
structure QueryTextResult where
  success : Bool
  answer : String
  provider : String
  model : String
  deriving DecidableEq, Repr

/-- Fallback answer returned when the last provider fails with a non-quota
error ("I apologize, but I'm experiencing technical difficulties. ..."). -/
def apologyAnswer : String :=
  "I apologize, but I\x27m experiencing technical difficulties. Please try again in a moment."

/-- Fallback answer returned when the provider loop is exhausted
("Service temporarily unavailable. ..."). -/
def unavailableAnswer : String :=
  "Service temporarily unavailable. Please try again later."

/-- `LLMFallbackHandler.query_text`: try providers in order; a success returns
immediately; a quota error always moves to the next provider; a non-quota error
on the last provider returns the apology record; any other failure moves on;
an exhausted loop returns the bottom unavailable record. -/
def queryText : List Provider → QueryTextResult
  | [] =>
    { success := false, answer := unavailableAnswer,
      provider := "None", model := "None" }
  | p :: rest =>
    match p.outcome with
    | .success ans =>
      { success := true, answer := ans, provider := p.name, model := p.textModel }
    | .failure msg =>
      if isQuotaError msg then queryText rest
      else if rest = [] then
        { success := false, answer := apologyAnswer,
          provider := "None", model := "None" }
      else queryText rest

/-! ## Table extraction cascade (`src/backend/src/advanced_table_extractor.py`) -/

/-- Extraction methods of `AdvancedTableExtractor`
(`'camelot-lattice' | 'camelot-stream' | 'tabula' | 'pdfplumber'`). -/
inductive ExtractionMethod
  | latticeMode
  | streamMode
  | tabulaMode
  | plumberMode
  deriving DecidableEq, Repr

/-- An extracted table as kept by the cascade: the producing method, the
accuracy/confidence recorded for it, and its index on the page. -/
structure ExtTable where
  method : ExtractionMethod
  accuracy : ℚ
  tableIndex : ℕ
  deriving DecidableEq, Repr

/-- Raw per-page detector output: the accuracy reported for each table by
camelot's lattice and stream modes, and the number of cleaned tables the
tabula and pdfplumber detectors would yield (those two get fixed accuracies
75 and 60 in the source). -/
structure PageDetections where
  latticeAcc : List ℚ
  streamAcc : List ℚ
  tabulaCount : ℕ
  plumberCount : ℕ
  deriving DecidableEq, Repr

/-- Camelot lattice pass of `_extract_with_camelot`: keep each table whose
reported accuracy is strictly above 50, tagged `camelot-lattice`. -/
def camelotLattice (page : PageDetections) : List ExtTable :=
  (page.latticeAcc.enum.filter (fun p => p.2 > 50)).map
    (fun p => { method := .latticeMode, accuracy := p.2, tableIndex := p.1 })

/-- Camelot stream pass of `_extract_with_camelot`: keep each table whose
reported accuracy is strictly above 40, tagged `camelot-stream`. -/
def camelotStream (page : PageDetections) : List ExtTable :=
  (page.streamAcc.enum.filter (fun p => p.2 > 40)).map
    (fun p => { method := .streamMode, accuracy := p.2, tableIndex := p.1 })

/-- `_extract_with_camelot`: the lattice pass runs first; the stream pass runs
only when the lattice pass kept nothing. -/
def extractWithCamelot (page : PageDetections) : List ExtTable :=
  if camelotLattice page = [] then camelotStream page else camelotLattice page

/-- Tables contributed by the camelot stage of `extract_tables` (nothing when
camelot is unavailable). -/
def camelotStage (camelotAvailable : Bool) (page : PageDetections) :
    List ExtTable :=
  if camelotAvailable then extractWithCamelot page else []

/-- `_extract_with_tabula`: every kept table has the fixed accuracy 75. -/
def tabulaStage (page : PageDetections) : List ExtTable :=
  (List.range page.tabulaCount).map
    (fun i => { method := .tabulaMode, accuracy := 75, tableIndex := i })

/-- `_extract_with_pdfplumber`: every kept table has the fixed accuracy 60. -/
def plumberStage (page : PageDetections) : List ExtTable :=
  (List.range page.plumberCount).map
    (fun i => { method := .plumberMode, accuracy := 60, tableIndex := i })

/-- Tables held after the tabula step of `extract_tables`: tabula runs only if
the camelot stage produced nothing and tabula is available. -/
def afterTabula (camelotAvailable tabulaAvailable : Bool)
    (page : PageDetections) : List ExtTable :=
  if camelotStage camelotAvailable page = [] ∧ tabulaAvailable then
    tabulaStage page
  else camelotStage camelotAvailable page

/-- `AdvancedTableExtractor.extract_tables`: pdfplumber is the final fallback,
reached only when every earlier stage produced nothing. -/
def extractTables (camelotAvailable tabulaAvailable : Bool)
    (page : PageDetections) : List ExtTable :=
  if afterTabula camelotAvailable tabulaAvailable page = [] then
    plumberStage page
  else afterTabula camelotAvailable tabulaAvailable page

/-- Methods invoked during `extract_tables`, in call order, mirroring the
source's control flow (camelot lattice always runs when camelot is available;
stream only on an empty lattice result; tabula only on an empty camelot stage;
pdfplumber only when still empty). -/
def invokedMethods (camelotAvailable tabulaAvailable : Bool)
    (page : PageDetections) : List ExtractionMethod :=
  (if camelotAvailable then
    (if camelotLattice page = [] then [.latticeMode, .streamMode]
     else [.latticeMode])
   else [])
  ++ (if camelotStage camelotAvailable page = [] ∧ tabulaAvailable then
      [.tabulaMode] else [])
  ++ (if afterTabula camelotAvailable tabulaAvailable page = [] then
      [.plumberMode] else [])

/-! ## Rate limiter (`src/backend/src/redis_cache.py`) -/

/-- State of the single counter key `rate:{identifier}` in the cache backend:
`none` when absent, otherwise the stored count and the absolute time at which
the key expires. -/
abbrev RateKey := Option (ℕ × ℤ)

/-- The count `client.get(rate_key)` observes at time `now`: the stored value
while the key is unexpired, otherwise 0 (`int(current) if current else 0` on a
missing key). -/
def currentCount (st : RateKey) (now : ℤ) : ℕ :=
  match st with
  | some (c, expiresAt) => if now < expiresAt then c else 0
  | none => 0

/-- The `client.ttl(rate_key)` value at time `now`: remaining seconds for a
live key, a negative sentinel for a missing or expired one. -/
def currentTtl (st : RateKey) (now : ℤ) : ℤ :=
  match st with
  | some (_, expiresAt) => if now < expiresAt then expiresAt - now else -2
  | none => -2

/-- Result record of `RedisCacheManager.check_rate_limit`. -/
structure RateLimitResult where
  allowed : Bool
  remaining : ℤ
  resetAt : ℤ
  deriving DecidableEq, Repr

/-- `RedisCacheManager.check_rate_limit` over the explicit key state: when the
observed count has reached `max_requests` it answers denied and performs no
backend write; otherwise it increments the counter and refreshes its expiry to
the full window, answering allowed.  Returns the result together with the new
key state. -/
def checkRateLimit (st : RateKey) (now : ℤ) (maxRequests window : ℕ) :
    RateLimitResult × RateKey :=
  let count := currentCount st now
  if count ≥ maxRequests then
    let ttl := currentTtl st now
    ({ allowed := false, remaining := 0,
       resetAt := if ttl > 0 then now + ttl else now + (window : ℤ) }, st)
  else
    ({ allowed := true, remaining := (maxRequests : ℤ) - (count : ℤ) - 1,
       resetAt := now + (window : ℤ) },
     some (count + 1, now + (window : ℤ)))

/-! ## Parallel page extraction (`src/backend/src/pdf_processor.py`) -/

/-- Outcome of one page worker in `PDFProcessor.extract_content`: either the
page's chunk list from `future.result()`, or a raised exception. -/
inductive PageOutcome
  | ok (chunks : List String)
  | failed
  deriving DecidableEq, Repr

/-- The chunk list a page contributes to the `results` dict: its own chunks on
success, the empty list when its worker raised. -/
def pageChunks : PageOutcome → List String
  | .ok chunks => chunks
  | .failed => []

/-- The `results` dict of `extract_content`, built by inserting each page's
chunk list as its future completes; `order` is the completion order of the
workers. -/
def collectResults (order : List ℕ) (outcome : ℕ → PageOutcome) :
    List (ℕ × List String) :=
  order.map (fun p => (p, pageChunks (outcome p)))

/-- Dict lookup `results[page_num]` (empty when the page is absent). -/
def lookupPage (results : List (ℕ × List String)) (p : ℕ) : List String :=
  ((results.find? (fun r => r.1 == p)).map (fun r => r.2)).getD []

/-- `PDFProcessor.extract_content` after the worker pool joins: iterate
`sorted(results.keys())` and concatenate each page's chunk list. -/
def extractContent (order : List ℕ) (outcome : ℕ → PageOutcome) :
    List String :=
  (((collectResults order outcome).map Prod.fst).mergeSort).flatMap
    (fun p => lookupPage (collectResults order outcome) p)

/-! ## Document ingestion into the store (`ChromaVectorStore.add_documents`) -/

/-- The composite chunk id built by `ChromaVectorStore.add_documents`:
`f"{user_id}_{document_name}_{i}"` when a user id is present, else
`f"{document_name}_{i}"`. -/
def chunkId (userId : Option String) (documentName : String) (i : ℕ) : String :=
  match userId with
  | some u => u ++ "_" ++ documentName ++ "_" ++ toString i
  | none => documentName ++ "_" ++ toString i

/-- The ChromaDB collection contents: entries keyed by chunk id. -/
abbrev Collection := List (String × ChunkInput)

/-- Modelled from the spec: the ChromaDB collection itself lives in the
external `chromadb` client library, not in this repository; the spec states
the store is "idempotent on re-insertion of the same composite id
(overwrite)", so inserting under an id already present overwrites that entry
and inserting under a fresh id appends it. -/
def collectionAdd (c : Collection) (id : String) (e : ChunkInput) :
    Collection :=
  if c.any (fun p => p.1 == id) then
    c.map (fun p => if p.1 == id then (id, e) else p)
  else c ++ [(id, e)]

/-- The insertion loop of `add_documents` from chunk index `i` on
(`for i, chunk in enumerate(chunks)` builds the ids; the batched
`collection.add` calls insert them in that order). -/
def addChunksFrom (documentName : String) (userId : Option String)
    (c : Collection) (i : ℕ) : List ChunkInput → Collection
  | [] => c
  | ch :: rest =>
      addChunksFrom documentName userId
        (collectionAdd c (chunkId userId documentName i) ch) (i + 1) rest

/-- `ChromaVectorStore.add_documents`: store every chunk of the document under
its composite id `(user_id, document_name, index)`. -/
def addDocuments (c : Collection) (chunks : List ChunkInput)
    (documentName : String) (userId : Option String) : Collection :=
  addChunksFrom documentName userId c 0 chunks

/-- Decision of one `check_rate_limit` call for a limiter configured with
`max_requests = 3` and `window = 60`. -/
def rlAllowed (st : RateKey) (now : ℤ) : Bool :=
  (checkRateLimit st now 3 60).1.allowed

/-- Backend key state left by one `check_rate_limit` call for a limiter
configured with `max_requests = 3` and `window = 60`. -/
def rlState (st : RateKey) (now : ℤ) : RateKey :=
  (checkRateLimit st now 3 60).2

/-! ## Claim theorems: retriever scoring and confidence -/

/-- C3: for a `table`-classified query, a table-kind chunk with raw distance
`dt` is scored `(1 - 0.8 * dt) * 1.2` and a text-kind chunk with raw distance
`dx` is scored `1 - dx`; whenever the text chunk's raw similarity is strictly
worse (`dt < dx`, distances non-negative) the table chunk's final score is not
below the text chunk's. -/
theorem table_boost_monotone (mt mx : Metadata) (dt dx : ℚ)
    (ht : metaLookup mt "chunk_type" = some (.str "table"))
    (hx : metaLookup mx "chunk_type" = some (.str "text"))
    (hdt : 0 ≤ dt) (hdx : 0 ≤ dx) (hlt : dt < dx) :
    finalScore .table mx dx ≤ finalScore .table mt dt := by
  simp +decide only [finalScore, rerankScore, filterDistance, typeBoost,
    lengthBoost, ht, hx, if_false, if_true, and_true, and_false, false_and,
    reduceIte]
  nlinarith

/-- Witness for C3 at concrete metadata and distances. -/
theorem table_boost_monotone_witness :
    finalScore .table [("chunk_type", .str "text")] (1/2)
      ≤ finalScore .table [("chunk_type", .str "table")] (1/4) := by
  exact table_boost_monotone [("chunk_type", .str "table")]
    [("chunk_type", .str "text")] (1/4) (1/2) (by decide) (by decide)
    (by norm_num) (by norm_num) (by norm_num)

/-- C6: the answer confidence equals
`min(avg(scores) * (1 + min(count / 5, 1) * 0.2), 1)` for a non-empty context
list, is always at most 1, and is 0 for an empty context list. -/
theorem confidence_formula (scores : List ℚ) :
    (scores ≠ [] →
      calculateConfidence scores =
        min (scores.sum / scores.length
              * (1 + min ((scores.length : ℚ) / 5) 1 * (2/10))) 1)
    ∧ calculateConfidence scores ≤ 1
    ∧ calculateConfidence [] = 0 := by
  refine ⟨fun h => by simp [calculateConfidence, h], ?_, by simp [calculateConfidence]⟩
  by_cases h : scores = []
  · simp [calculateConfidence, h]
  · simp [calculateConfidence, h]

/-- Witness for C6 on a concrete two-chunk context. -/
theorem confidence_formula_witness :
    calculateConfidence [1/2, 1/2] =
      min ((([(1:ℚ)/2, 1/2].sum) / ([(1:ℚ)/2, 1/2].length)
            * (1 + min (([(1:ℚ)/2, 1/2].length : ℚ) / 5) 1 * (2/10))) : ℚ) 1 :=
  (confidence_formula [1/2, 1/2]).1 (by simp)

/-! ## Claim theorems: empty-store retrieval and the word-count boost -/

/-- C1 (divergence): against an empty chunk store, `ChromaVectorStore.search`
returns the nested reply `{'documents': [[]], ...}`, so the `total_found`
computed by `SmartRetriever.retrieve` is `len([[]]) = 1`, not 0. -/
theorem empty_store_total_found (reply : ChromaQueryReply) :
    retrieveTotalFound (chromaSearch 0 reply) = 1 := by
  simp [retrieveTotalFound, chromaSearch, chromaEmptyReply]

/-- C5 (divergence): the metadata stored by `ChromaVectorStore.add_documents`
has no `word_count` field, so for a `conceptual` query the re-ranker reads a
word count of 0 and scores every such chunk `1 - dist`, never applying the
1.1x boost — regardless of how many words the chunk content actually has. -/
theorem word_count_boost_never_applies (documentName : String)
    (userId : Option String) (ch : ChunkInput) (dist : ℚ) :
    metaLookup (chunkMetadata documentName userId ch) "word_count" = none
    ∧ rerankScore .conceptual (chunkMetadata documentName userId ch) dist
        = 1 - dist := by
  have hnone :
      metaLookup (chunkMetadata documentName userId ch) "word_count" = none := by
    cases userId <;>
      simp +decide [metaLookup, chunkMetadata, List.find?]
  refine ⟨hnone, ?_⟩
  have hct :
      metaLookup (chunkMetadata documentName userId ch) "chunk_type"
        = some (.str ch.chunk_type) := by
    cases userId <;>
      simp +decide [metaLookup, chunkMetadata, List.find?]
  simp +decide [rerankScore, typeBoost, lengthBoost, metaWordCount, hnone, hct]

/-! ## Claim theorems: provider cascade -/

/-- C4: (1) if every provider before `p` fails with a quota/rate-limit error
and `p` succeeds, `query_text` returns `success = true` with `provider`
equal to `p`'s name; (2) if every provider fails, it returns (never raises) a
record with `success = false` and one of the two user-safe fallback answers. -/
theorem query_text_cascade :
    (∀ (pre post : List Provider) (p : Provider) (ans : String),
      (∀ q ∈ pre, ∃ msg, q.outcome = .failure msg ∧ isQuotaError msg) →
      p.outcome = .success ans →
      queryText (pre ++ p :: post) =
        { success := true, answer := ans, provider := p.name,
          model := p.textModel })
    ∧ (∀ ps : List Provider,
        (∀ p ∈ ps, ∃ msg, p.outcome = .failure msg) →
        (queryText ps).success = false
        ∧ ((queryText ps).answer = apologyAnswer
            ∨ (queryText ps).answer = unavailableAnswer)) := by
  constructor
  · intro pre
    induction pre with
    | nil =>
      intro post p ans _ hp
      simp [queryText, hp]
    | cons q pre ih =>
      intro post p ans hpre hp
      obtain ⟨msg, hq, hquota⟩ := hpre q (List.mem_cons_self q pre)
      have : queryText ((q :: pre) ++ p :: post) = queryText (pre ++ p :: post) := by
        simp [queryText, hq, hquota]
      rw [this]
      exact ih post p ans (fun r hr => hpre r (List.mem_cons_of_mem q hr)) hp
  · intro ps
    induction ps with
    | nil => intro _; simp [queryText]
    | cons p rest ih =>
      intro hall
      obtain ⟨msg, hp⟩ := hall p (List.mem_cons_self p rest)
      by_cases hq : isQuotaError msg
      · have : queryText (p :: rest) = queryText rest := by
          simp [queryText, hp, hq]
        rw [this]
        exact ih (fun r hr => hall r (List.mem_cons_of_mem p hr))
      · by_cases hrest : rest = []
        · simp [queryText, hp, hq, hrest]
        · have : queryText (p :: rest) = queryText rest := by
            simp [queryText, hp, hq, hrest]
          rw [this]
          exact ih (fun r hr => hall r (List.mem_cons_of_mem p hr))

/-- Witness for C4: providers 1 and 2 fail with quota errors, provider 3
succeeds; the cascade returns provider 3's record. -/
theorem query_text_cascade_witness :
    queryText
      [{ name := "Groq", textModel := "llama-3.1-8b-instant",
         outcome := .failure "Error code: 429 - rate limit reached" },
       { name := "SambaNova", textModel := "Meta-Llama-3.1-8B-Instruct",
         outcome := .failure "daily quota exceeded" },
       { name := "OpenRouter", textModel := "deepseek/deepseek-r1:free",
         outcome := .success "The answer." }]
      = { success := true, answer := "The answer.",
          provider := "OpenRouter", model := "deepseek/deepseek-r1:free" } := by
  refine query_text_cascade.1
    [{ name := "Groq", textModel := "llama-3.1-8b-instant",
       outcome := .failure "Error code: 429 - rate limit reached" },
     { name := "SambaNova", textModel := "Meta-Llama-3.1-8B-Instruct",
       outcome := .failure "daily quota exceeded" }] []
    { name := "OpenRouter", textModel := "deepseek/deepseek-r1:free",
      outcome := .success "The answer." } "The answer." ?_ rfl
  intro q hq
  simp only [List.mem_cons, List.not_mem_nil, or_false] at hq
  rcases hq with h | h
  · exact ⟨"Error code: 429 - rate limit reached", by rw [h], by decide⟩
  · exact ⟨"daily quota exceeded", by rw [h], by decide⟩

/-! ## Claim theorems: table cascade priority -/

lemma stream_invoked_iff (ca ta : Bool) (page : PageDetections) :
    ExtractionMethod.streamMode ∈ invokedMethods ca ta page
      ↔ ca = true ∧ camelotLattice page = [] := by
  unfold invokedMethods
  split_ifs <;> simp_all +decide

lemma plumber_invoked_iff (ca ta : Bool) (page : PageDetections) :
    ExtractionMethod.plumberMode ∈ invokedMethods ca ta page
      ↔ afterTabula ca ta page = [] := by
  unfold invokedMethods
  split_ifs <;> simp_all +decide

lemma afterTabula_empty_camelotStage (ca ta : Bool) (page : PageDetections)
    (h : afterTabula ca ta page = []) : camelotStage ca page = [] := by
  unfold afterTabula at h
  split_ifs at h with hc
  · exact hc.1
  · exact h

/-- C7: (1) when camelot is available and the lattice detector keeps at least
one table above its 50 floor, those tables are the result and neither the
stream, tabula nor pdfplumber methods are invoked; (2) the stream detector is
invoked only when the lattice detector kept nothing; (3) the pdfplumber
fallback is invoked only when the camelot stage contributed nothing, and every
table it produces carries the fixed confidence 60. -/
theorem extract_tables_cascade (ca ta : Bool) (page : PageDetections) :
    (ca = true → camelotLattice page ≠ [] →
      extractTables ca ta page = camelotLattice page
      ∧ ExtractionMethod.streamMode ∉ invokedMethods ca ta page
      ∧ ExtractionMethod.tabulaMode ∉ invokedMethods ca ta page
      ∧ ExtractionMethod.plumberMode ∉ invokedMethods ca ta page)
    ∧ (ExtractionMethod.streamMode ∈ invokedMethods ca ta page →
        camelotLattice page = [])
    ∧ (ExtractionMethod.plumberMode ∈ invokedMethods ca ta page →
        camelotStage ca page = []
        ∧ extractTables ca ta page = plumberStage page
        ∧ ∀ t ∈ extractTables ca ta page, t.accuracy = 60) := by
  refine ⟨?_, ?_, ?_⟩
  · intro hca hlat
    subst hca
    have hcs : camelotStage true page = camelotLattice page := by
      simp [camelotStage, extractWithCamelot, hlat]
    have hat : afterTabula true ta page = camelotLattice page := by
      simp [afterTabula, hcs, hlat]
    have hinv : invokedMethods true ta page = [.latticeMode] := by
      simp [invokedMethods, hlat, hcs, hat]
    refine ⟨by simp [extractTables, hat, hlat], ?_, ?_, ?_⟩ <;>
      simp +decide [hinv]
  · intro hmem
    exact ((stream_invoked_iff ca ta page).mp hmem).2
  · intro hmem
    have hat : afterTabula ca ta page = [] :=
      (plumber_invoked_iff ca ta page).mp hmem
    have hres : extractTables ca ta page = plumberStage page := by
      simp [extractTables, hat]
    refine ⟨afterTabula_empty_camelotStage ca ta page hat, hres, ?_⟩
    rw [hres]
    intro t ht
    simp only [plumberStage, List.mem_map, List.mem_range] at ht
    obtain ⟨i, _, rfl⟩ := ht
    rfl

/-- Witness for C7: a page whose lattice detector reports one table at
confidence 70 — method A's result is used, and only method A is invoked. -/
theorem extract_tables_cascade_witness :
    extractTables true true
        { latticeAcc := [70], streamAcc := [55], tabulaCount := 1,
          plumberCount := 1 }
      = [{ method := .latticeMode, accuracy := 70, tableIndex := 0 }]
    ∧ ExtractionMethod.plumberMode ∉ invokedMethods true true
        { latticeAcc := [70], streamAcc := [55], tabulaCount := 1,
          plumberCount := 1 } := by
  have h := (extract_tables_cascade true true
    { latticeAcc := [70], streamAcc := [55], tabulaCount := 1,
      plumberCount := 1 }).1 rfl (by decide)
  refine ⟨h.1.trans (by decide), h.2.2.2⟩

/-! ## Claim theorems: rate limiter boundary and frame -/

/-- C8: with `max_requests = 3`, `window = 60` and a fresh identifier, four
calls within the window are allowed, allowed, allowed, denied; a fifth call
after the window has elapsed (the counter key expired) is allowed again. -/
theorem rate_limit_boundary (t0 t1 t2 t3 t4 : ℤ)
    (h1 : t1 < t0 + 60) (h2 : t2 < t1 + 60) (h3 : t3 < t2 + 60)
    (h4 : t2 + 60 ≤ t4) :
    rlAllowed none t0 = true
    ∧ rlAllowed (rlState none t0) t1 = true
    ∧ rlAllowed (rlState (rlState none t0) t1) t2 = true
    ∧ rlAllowed (rlState (rlState (rlState none t0) t1) t2) t3 = false
    ∧ rlAllowed (rlState (rlState (rlState (rlState none t0) t1) t2) t3) t4
        = true := by
  have s1 : rlState none t0 = some (1, t0 + 60) := by
    simp [rlState, checkRateLimit, currentCount]
  have s2 : rlState (some (1, t0 + 60)) t1 = some (2, t1 + 60) := by
    simp [rlState, checkRateLimit, currentCount, if_pos h1]
  have s3 : rlState (some (2, t1 + 60)) t2 = some (3, t2 + 60) := by
    simp [rlState, checkRateLimit, currentCount, if_pos h2]
  have s4 : rlState (some (3, t2 + 60)) t3 = some (3, t2 + 60) := by
    simp [rlState, checkRateLimit, currentCount, if_pos h3]
  refine ⟨by simp [rlAllowed, checkRateLimit, currentCount], ?_, ?_, ?_, ?_⟩
  · rw [s1]; simp [rlAllowed, checkRateLimit, currentCount, if_pos h1]
  · rw [s1, s2]; simp [rlAllowed, checkRateLimit, currentCount, if_pos h2]
  · rw [s1, s2, s3]; simp [rlAllowed, checkRateLimit, currentCount, if_pos h3]
  · rw [s1, s2, s3, s4]
    have hno : ¬ t4 < t2 + 60 := not_lt.mpr h4
    simp [rlAllowed, checkRateLimit, currentCount, if_neg hno]

/-- Witness for C8 at concrete call times 0, 10, 20, 30 and 100. -/
theorem rate_limit_boundary_witness :
    rlAllowed none 0 = true
    ∧ rlAllowed (rlState none 0) 10 = true
    ∧ rlAllowed (rlState (rlState none 0) 10) 20 = true
    ∧ rlAllowed (rlState (rlState (rlState none 0) 10) 20) 30 = false
    ∧ rlAllowed (rlState (rlState (rlState (rlState none 0) 10) 20) 30) 100
        = true :=
  rate_limit_boundary 0 10 20 30 100 (by norm_num) (by norm_num) (by norm_num)
    (by norm_num)

/-- C10: a denied `check_rate_limit` call performs no backend write — the key
state is returned unchanged, so the time-to-reset is never extended — while an
allowed call increments the observed count by one and refreshes the key's
expiry to the full window from now. -/
theorem rate_limit_frame (st : RateKey) (now : ℤ) (maxRequests window : ℕ) :
    ((checkRateLimit st now maxRequests window).1.allowed = false →
      (checkRateLimit st now maxRequests window).2 = st)
    ∧ ((checkRateLimit st now maxRequests window).1.allowed = true →
      (checkRateLimit st now maxRequests window).2
        = some (currentCount st now + 1, now + (window : ℤ))) := by
  unfold checkRateLimit
  by_cases h : currentCount st now ≥ maxRequests <;> simp [h]

/-- Witness for C10: a denied call (count 3 at the cap 3) leaves the key state
untouched; an allowed call on a fresh key writes count 1 with a full window. -/
theorem rate_limit_frame_witness :
    (checkRateLimit (some (3, 100)) 0 3 60).2 = some (3, 100)
    ∧ (checkRateLimit none 0 3 60).2 = some (1, 0 + (60 : ℤ)) := by
  constructor
  · exact (rate_limit_frame (some (3, 100)) 0 3 60).1 (by decide)
  · exact (rate_limit_frame none 0 3 60).2 (by decide)

/-! ## Claim theorems: page-order merge -/

lemma lookupPage_collect (order : List ℕ) (outcome : ℕ → PageOutcome) (p : ℕ)
    (hp : p ∈ order) :
    lookupPage (collectResults order outcome) p = pageChunks (outcome p) := by
  induction order with
  | nil => cases hp
  | cons q rest ih =>
    by_cases hq : q = p
    · subst hq
      simp [lookupPage, collectResults, List.find?_cons_of_pos]
    · have hp' : p ∈ rest := by
        rcases List.mem_cons.mp hp with h | h
        · exact absurd h.symm hq
        · exact h
      have hne : ((q, pageChunks (outcome q)).1 == p) = false := by
        simpa using hq
      calc lookupPage (collectResults (q :: rest) outcome) p
          = lookupPage (collectResults rest outcome) p := by
            simp [lookupPage, collectResults, List.find?_cons_of_neg, hne, hq]
        _ = pageChunks (outcome p) := ih hp'

lemma mergeSort_perm_range (n : ℕ) (l : List ℕ)
    (hperm : l.Perm (List.range n)) : l.mergeSort = List.range n :=
  List.eq_of_perm_of_sorted ((List.mergeSort_perm l _).trans hperm)
    (List.sorted_mergeSort' l) (List.sorted_le_range n)

/-- C9: for an `n`-page document, whatever order the page workers complete in
(any permutation of the page indices), `extract_content` returns the per-page
chunk lists concatenated in ascending page order, a failed page contributing
the empty list in its place. -/
theorem extract_content_page_order (totalPages : ℕ) (order : List ℕ)
    (outcome : ℕ → PageOutcome)
    (hperm : order.Perm (List.range totalPages)) :
    extractContent order outcome
      = (List.range totalPages).flatMap (fun p => pageChunks (outcome p)) := by
  have hkeys : (collectResults order outcome).map Prod.fst = order := by
    simp [collectResults, Function.comp_def]
  unfold extractContent
  rw [hkeys, mergeSort_perm_range totalPages order hperm]
  exact List.flatMap_congr fun p hp =>
    lookupPage_collect order outcome p ((hperm.mem_iff).mpr hp)

/-- Witness for C9: three pages completing in the order 2, 0, 1 with page 1
failed; the output is page 0's chunks then page 2's chunks. -/
theorem extract_content_page_order_witness :
    extractContent [2, 0, 1]
      (fun p => if p = 0 then .ok ["a0"] else if p = 1 then .failed
                else .ok ["a2", "b2"])
      = (List.range 3).flatMap
          (fun p => pageChunks (if p = 0 then .ok ["a0"]
            else if p = 1 then .failed else .ok ["a2", "b2"])) :=
  extract_content_page_order 3 [2, 0, 1]
    (fun p => if p = 0 then .ok ["a0"] else if p = 1 then .failed
              else .ok ["a2", "b2"]) (by decide)

/-! ## Claim theorems: idempotent re-ingestion -/

lemma collectionAdd_mem_self (c : Collection) (id : String) (e : ChunkInput) :
    (collectionAdd c id e).any (fun p => p.1 == id) = true := by
  unfold collectionAdd
  split_ifs with h
  · rw [List.any_map]
    rw [List.any_eq_true] at h ⊢
    obtain ⟨p, hp, hpid⟩ := h
    have hps : p.1 = id := by simpa using hpid
    exact ⟨p, hp, by simp [Function.comp_def, hps]⟩
  · simp [List.any_append]

lemma collectionAdd_mem_preserve (c : Collection) (id : String)
    (e : ChunkInput) (id' : String)
    (h : c.any (fun p => p.1 == id') = true) :
    (collectionAdd c id e).any (fun p => p.1 == id') = true := by
  unfold collectionAdd
  split_ifs with hm
  · rw [List.any_map]
    rw [List.any_eq_true] at h ⊢
    obtain ⟨p, hp, hpid⟩ := h
    refine ⟨p, hp, ?_⟩
    have h2 : p.1 = id' := by simpa using hpid
    subst h2
    by_cases h1 : p.1 = id
    · simp [Function.comp_def, h1]
    · simp [Function.comp_def, h1]
  · rw [List.any_append]
    simp [h]

lemma collectionAdd_length_of_mem (c : Collection) (id : String)
    (e : ChunkInput) (h : c.any (fun p => p.1 == id) = true) :
    (collectionAdd c id e).length = c.length := by
  simp [collectionAdd, h]

lemma collectionAdd_keys_nodup (c : Collection) (id : String) (e : ChunkInput)
    (h : (c.map Prod.fst).Nodup) :
    ((collectionAdd c id e).map Prod.fst).Nodup := by
  unfold collectionAdd
  split_ifs with hm
  · have hkeys : (c.map (fun p => if p.1 == id then (id, e) else p)).map Prod.fst
        = c.map Prod.fst := by
      rw [List.map_map]
      apply List.map_congr_left
      intro p _
      by_cases h1 : p.1 = id
      · simp [Function.comp_def, h1]
      · simp [Function.comp_def, h1]
    rw [hkeys]
    exact h
  · rw [List.map_append]
    have hnot : id ∉ c.map Prod.fst := by
      intro hmem
      obtain ⟨p, hp, hpid⟩ := List.mem_map.mp hmem
      have : c.any (fun p => p.1 == id) = true :=
        List.any_eq_true.mpr ⟨p, hp, by simp [hpid]⟩
      exact absurd this (by simpa using hm)
    simp [List.nodup_append, h, hnot]

lemma addChunksFrom_mem_preserve (documentName : String)
    (userId : Option String) (chunks : List ChunkInput) (c : Collection)
    (i : ℕ) (id' : String) (h : c.any (fun p => p.1 == id') = true) :
    (addChunksFrom documentName userId c i chunks).any
      (fun p => p.1 == id') = true := by
  induction chunks generalizing c i with
  | nil => exact h
  | cons ch rest ih =>
    exact ih _ (i + 1) (collectionAdd_mem_preserve _ _ _ _ h)

lemma addChunksFrom_mem_ids (documentName : String) (userId : Option String)
    (chunks : List ChunkInput) (c : Collection) (i : ℕ) (j : ℕ)
    (hj : j < chunks.length) :
    (addChunksFrom documentName userId c i chunks).any
      (fun p => p.1 == chunkId userId documentName (i + j)) = true := by
  induction chunks generalizing c i j with
  | nil => cases hj
  | cons ch rest ih =>
    cases j with
    | zero =>
      have h0 := collectionAdd_mem_self c (chunkId userId documentName i) ch
      simpa using
        addChunksFrom_mem_preserve documentName userId rest _ (i + 1) _ h0
    | succ j' =>
      have hj' : j' < rest.length := by simpa using Nat.lt_of_succ_lt_succ hj
      have hstep := ih (collectionAdd c (chunkId userId documentName i) ch)
        (i + 1) j' hj'
      have heq : i + 1 + j' = i + (j' + 1) := by omega
      rw [heq] at hstep
      exact hstep

lemma addChunksFrom_length_of_all_mem (documentName : String)
    (userId : Option String) (chunks : List ChunkInput) :
    ∀ (c : Collection) (i : ℕ),
      (∀ j, j < chunks.length →
        c.any (fun p => p.1 == chunkId userId documentName (i + j)) = true) →
      (addChunksFrom documentName userId c i chunks).length = c.length := by
  induction chunks with
  | nil => intro c i _; rfl
  | cons ch rest ih =>
    intro c i h
    have h0 : c.any (fun p => p.1 == chunkId userId documentName i) = true := by
      simpa using h 0 (Nat.succ_pos _)
    rw [addChunksFrom]
    rw [ih _ (i + 1) ?_, collectionAdd_length_of_mem c _ ch h0]
    intro j hj
    apply collectionAdd_mem_preserve
    have hmem := h (j + 1) (Nat.succ_lt_succ hj)
    have heq : i + (j + 1) = i + 1 + j := by omega
    rw [heq] at hmem
    exact hmem

lemma addChunksFrom_keys_nodup (documentName : String)
    (userId : Option String) (chunks : List ChunkInput) (c : Collection)
    (i : ℕ) (h : (c.map Prod.fst).Nodup) :
    ((addChunksFrom documentName userId c i chunks).map Prod.fst).Nodup := by
  induction chunks generalizing c i with
  | nil => exact h
  | cons ch rest ih =>
    exact ih _ (i + 1) (collectionAdd_keys_nodup _ _ _ h)

/-- C2: re-ingesting the same document's chunks for the same tenant is
idempotent on the stored entry count: the composite ids generated on the
second ingestion are the same as on the first, every insert overwrites, so the
collection size after the second `add_documents` equals the size after the
first; moreover ingestion never creates duplicate ids (key uniqueness is
preserved). -/
theorem add_documents_idempotent (c : Collection) (chunks : List ChunkInput)
    (documentName : String) (userId : Option String) :
    (addDocuments (addDocuments c chunks documentName userId) chunks
        documentName userId).length
      = (addDocuments c chunks documentName userId).length
    ∧ ((c.map Prod.fst).Nodup →
        ((addDocuments c chunks documentName userId).map Prod.fst).Nodup) := by
  constructor
  · unfold addDocuments
    apply addChunksFrom_length_of_all_mem
    intro j hj
    simpa using addChunksFrom_mem_ids documentName userId chunks c 0 j hj
  · intro h
    exact addChunksFrom_keys_nodup documentName userId chunks c 0 h

/-- Witness for C2: ingesting two chunks twice into an empty store for tenant
`alice` leaves the same entry count as one ingestion, with no duplicate ids. -/
theorem add_documents_idempotent_witness :
    (addDocuments
        (addDocuments [] [{ content := "first chunk", chunk_type := "text",
                            page_number := 1 },
                          { content := "second chunk", chunk_type := "table",
                            page_number := 2 }] "report" (some "alice"))
        [{ content := "first chunk", chunk_type := "text", page_number := 1 },
         { content := "second chunk", chunk_type := "table", page_number := 2 }]
        "report" (some "alice")).length
      = (addDocuments [] [{ content := "first chunk", chunk_type := "text",
                            page_number := 1 },
                          { content := "second chunk", chunk_type := "table",
                            page_number := 2 }] "report" (some "alice")).length
    ∧ ((addDocuments [] [{ content := "first chunk", chunk_type := "text",
                           page_number := 1 },
                         { content := "second chunk", chunk_type := "table",
                           page_number := 2 }] "report"
          (some "alice")).map Prod.fst).Nodup :=
  ⟨(add_documents_idempotent [] _ "report" (some "alice")).1,
   (add_documents_idempotent [] _ "report" (some "alice")).2 (by simp)⟩

end DocuMind
